import Mathlib

/-!
Verification of `src/helpers.py` of the `cms-aws-example1` repository:
a shallow embedding of the dataset-shard provisioning and loading helpers,
together with theorems about their behaviour.

The filesystem is modelled as the set of existing paths (a `List String`),
external conditions (mount readability, download outcome, shard contents)
are fields of an `Env` record, and every observable side effect of a call is
recorded in an explicit trace.
-/

namespace Helpers

/-- Python errors that the module can raise: `ValueError` (invalid argument),
`KeyError` (dict lookup miss, as in `n_files[kind]`), and the plain
`Exception` used by `_wget` to wrap a download failure. -/
inductive PyErr where
  | valueError (msg : String)
  | keyError (key : String)
  | exception (msg : String)
deriving DecidableEq, Repr

/-- Observable side effects of the helpers, in program order:
`os.makedirs`, `os.remove`, `shutil.copy2`, the `wget` subprocess call,
`print`, the zero-filled array allocation, and `np.load`. -/
inductive Effect where
  | makedirs (p : String)
  | removeFile (p : String)
  | copyFile (src dst : String)
  | wgetCall (url path : String)
  | printMsg (m : String)
  | allocZeros (vecShape labShape : List Nat) (dtype : String)
  | npLoad (p : String)
deriving DecidableEq, Repr

/-- Embeds `os.path.join(a, b)` (POSIX): an absolute `b` wins, otherwise `b` is
appended, with a separator unless `a` is empty or already ends in one. -/
def os_path_join (a b : String) : String :=
  if b.data.head? = some '/' then b
  else if a.data.getLast? = some '/' ∨ a.data = [] then a ++ b
  else a ++ "/" ++ b

/-- Embeds `os.path.dirname` (POSIX flavour) for the slash-separated paths used
here: everything before the last separator. -/
def os_path_dirname (p : String) : String :=
  String.intercalate "/" (p.splitOn "/").dropLast

/-- Upper-case hexadecimal digit, as used by `urllib.parse.quote`. -/
def hexDigitUpper (n : Nat) : Char :=
  if n < 10 then Char.ofNat (48 + n) else Char.ofNat (55 + n)

/-- Percent-encoding of one byte value. -/
def percent_encode_byte (n : Nat) : String :=
  "%" ++ String.singleton (hexDigitUpper (n / 16 % 16)) ++
    String.singleton (hexDigitUpper (n % 16))

/-- Embeds `urllib.parse.quote` on one ASCII character with `safe=""`: unreserved
characters (letters, digits, `_`, `.`, `-`, `~`) pass through, everything
else is percent-encoded. -/
def urllib_quote_char (c : Char) : String :=
  if c.isAlphanum || c = '_' || c = '.' || c = '-' || c = '~' then
    String.singleton c
  else
    percent_encode_byte c.toNat

/-- Embeds `six.moves.urllib.parse.quote(s, safe="")` on the ASCII strings used
here. -/
def urllib_quote (s : String) : String :=
  String.join (s.toList.map urllib_quote_char)

/-- The `eos_data_dir` constant of the module. -/
def eos_data_dir : String := "/eos/user/m/mrieger/swan_aws_data"

/-- Embeds `eos_data_url.format(p, f)`: the fixed CERNBox base URL with the two
placeholders substituted. -/
def eos_data_url_format (p f : String) : String :=
  "https://cernbox.cern.ch/index.php/s/GAkUpZjhEbzi2Uy/download?path=" ++
    p ++ "&files=" ++ f

/-- The `n_constituents` constant. -/
def n_constituents : Nat := 200

/-- The `n_events_per_file` constant. -/
def n_events_per_file : Nat := 50000

/-- The `n_files` dict: shard counts per dataset kind, in insertion order. -/
def n_files : List (String × Nat) := [("train", 20), ("valid", 8), ("test", 8)]

/-- Embeds `kind in n_files` / `n_files[kind]` as an association-list lookup. -/
def n_files_get (kind : String) : Option Nat :=
  n_files.lookup kind

/-- The environment a call runs in: the directory of the module
(`this_dir`, computed by `os.path.abspath`), the set of existing filesystem
paths, whether the EOS mount is readable (`os.access(eos_data_dir, R_OK)`),
whether the `wget` subprocess fails (`some e` carries the stringified
original exception), and the per-event contents of the two named arrays of
each shard file (values abstracted as integers since they are only copied,
never computed on). -/
structure Env where
  this_dir : String
  fs : List String
  eos_readable : Bool
  wget_error : Option String
  shard_vec : String → Nat → Int
  shard_label : String → Nat → Int

/-- Embeds `data_dir = os.path.join(this_dir, "data")`. -/
def data_dir (env : Env) : String := os_path_join env.this_dir "data"

/-- Result of a stateful step: the returned value or raised error, the
filesystem afterwards, and the trace of effects performed. -/
structure StepOut (α : Type) where
  result : Except PyErr α
  fs : List String
  trace : List Effect
deriving Repr

/-- Embeds `_check_dataset_file(kind, index)`: validates the kind against
`n_files`, validates `0 <= index < n_files[kind]`, and returns the shard
file name `"{kind}_{index}.npz"`. Pure — raises before any I/O. -/
def _check_dataset_file (kind : String) (index : Int) : Except PyErr String :=
  match n_files_get kind with
  | none =>
      .error (.valueError ("unknown dataset kind '" ++ kind ++
        "', must be one of " ++ String.intercalate "," (n_files.map Prod.fst)))
  | some n =>
      if 0 ≤ index ∧ index < (n : Int) then
        .ok (kind ++ "_" ++ toString index ++ ".npz")
      else
        .error (.valueError ("dataset '" ++ kind ++ "' has no file index " ++
          toString index))

/-- Lines 52–55 of `_wget`: create the parent directory of `path` if it
does not exist, else remove a stale file at `path` if one exists. Returns
the filesystem afterwards and the effects performed. -/
def wget_pre (fs : List String) (path : String) : List String × List Effect :=
  if os_path_dirname path ∉ fs then
    (os_path_dirname path :: fs, [Effect.makedirs (os_path_dirname path)])
  else if path ∈ fs then (fs.erase path, [Effect.removeFile path])
  else (fs, [])

/-- Embeds `_wget(url, path)`: creates the parent directory if missing, else
removes a stale file at `path`; runs the `wget` subprocess; wraps any
failure in an `Exception` naming the URL and the original cause. -/
def _wget (fs : List String) (wget_error : Option String)
    (url path : String) : StepOut String :=
  let pre := wget_pre fs path
  match wget_error with
  | some e =>
      ⟨.error (.exception ("download of url '" ++ url ++ "' failed: " ++ e)),
        pre.1, pre.2 ++ [Effect.wgetCall url path]⟩
  | none =>
      ⟨.ok path, path :: pre.1, pre.2 ++ [Effect.wgetCall url path]⟩

/-- Lines 77–78 of `provide_file`: create the cache directory if it does
not exist. Returns the filesystem afterwards and the effects performed. -/
def ensure_dir (env : Env) : List String × List Effect :=
  if data_dir env ∉ env.fs then
    (data_dir env :: env.fs, [Effect.makedirs (data_dir env)])
  else (env.fs, [])

/-- Embeds `provide_file(kind, index)`: validates the arguments, ensures the cache
directory exists, and returns the local shard path — via cache hit, copy
from the EOS mount, or download from CERNBox, in that order. -/
def provide_file (env : Env) (kind : String) (index : Int) : StepOut String :=
  match _check_dataset_file kind index with
  | .error e => ⟨.error e, env.fs, []⟩
  | .ok file_name =>
    let pre := ensure_dir env
    let file_path := os_path_join (data_dir env) file_name
    if file_path ∈ pre.1 then
      ⟨.ok file_path, pre.1, pre.2⟩
    else if env.eos_readable then
      let public_path := os_path_join eos_data_dir file_name
      ⟨.ok file_path, file_path :: pre.1,
        pre.2 ++ [Effect.printMsg ("copy file from " ++ public_path),
          Effect.copyFile public_path file_path]⟩
    else
      let url := eos_data_url_format (urllib_quote "/") (urllib_quote file_name)
      let w := _wget pre.1 env.wget_error url file_path
      ⟨w.result, w.fs,
        pre.2 ++ [Effect.printMsg ("wget file from " ++ url)] ++ w.trace⟩

/-- A NumPy array abstracted along its first (event) axis: the full shape,
the dtype, and the per-event value (events beyond the first axis carry an
abstract integer token, since the code only ever copies whole slices). -/
structure NDArr where
  shape : List Nat
  dtype : String
  elem : Nat → Int

/-- Embeds `np.zeros(shape, dtype=np.float32)` along the event axis. -/
def np_zeros (shape : List Nat) : NDArr :=
  ⟨shape, "float32", fun _ => 0⟩

/-- In-place slice assignment `a[start:stop, ...] = src` along the event
axis. -/
def slice_set (a : NDArr) (start stop : Nat) (src : Nat → Int) : NDArr :=
  { a with elem := fun i => if start ≤ i ∧ i < stop then src (i - start) else a.elem i }

/-- Python's `range(a, b)` over integers. -/
def pyRange (a b : Int) : List Int :=
  (List.range (b - a).toNat).map (fun (k : Nat) => a + (k : Int))

/-- The list comprehension `[provide_file(kind, i) for i in idxs]`:
provisions each shard in order, threading the filesystem, short-circuiting
on the first raised error. -/
def provide_all (env : Env) (kind : String) (idxs : List Int)
    (fs : List String) : StepOut (List String) :=
  match idxs with
  | [] => ⟨.ok [], fs, []⟩
  | i :: rest =>
    let o := provide_file { env with fs := fs } kind i
    match o.result with
    | .error e => ⟨.error e, o.fs, o.trace⟩
    | .ok p =>
      let r := provide_all env kind rest o.fs
      match r.result with
      | .error e => ⟨.error e, r.fs, o.trace ++ r.trace⟩
      | .ok ps => ⟨.ok (p :: ps), r.fs, o.trace ++ r.trace⟩

/-- The fill loop of `load_data`: for the `j`-th path, `np.load` the file
and assign its `"constituents"` and `"truth_label"` arrays into the slice
`[j*n_events_per_file : (j+1)*n_events_per_file]` of the outputs. -/
def fill_loop (env : Env) (paths : List String) (j : Nat)
    (vecs labels : NDArr) : NDArr × NDArr × List Effect :=
  match paths with
  | [] => (vecs, labels, [])
  | p :: rest =>
    let start := j * n_events_per_file
    let stop := start + n_events_per_file
    let vecs' := slice_set vecs start stop (env.shard_vec p)
    let labels' := slice_set labels start stop (env.shard_label p)
    let r := fill_loop env rest (j + 1) vecs' labels'
    (r.1, r.2.1, Effect.npLoad p :: r.2.2)

/-- Lines 114–134 of `load_data`, after the stop index has been resolved:
provisions every shard in `range(start_file, stop_file)`, pre-allocates the
two zero-filled output arrays sized from the number of files, and fills
them shard by shard. -/
def load_body (env : Env) (kind : String) (start_file stop_file : Int) :
    StepOut (NDArr × NDArr) :=
  let pa := provide_all env kind (pyRange start_file stop_file) env.fs
  match pa.result with
  | .error e => ⟨.error e, pa.fs, pa.trace⟩
  | .ok file_paths =>
    let n_events := file_paths.length * n_events_per_file
    let vecs := np_zeros [n_events, n_constituents, 4]
    let labels := np_zeros [n_events]
    let f := fill_loop env file_paths 0 vecs labels
    ⟨.ok (f.1, f.2.1), pa.fs,
      pa.trace ++
        [Effect.allocZeros [n_events, n_constituents, 4] [n_events] "float32"] ++
        f.2.2⟩

/-- Embeds `load_data(kind, start_file, stop_file)`: applies the negative-stop
default (`n_files[kind] - 1`, a dict access that raises `KeyError` on an
unknown kind), then runs the provision-allocate-fill body. -/
def load_data (env : Env) (kind : String) (start_file : Int := 0)
    (stop_file : Int := -1) : StepOut (NDArr × NDArr) :=
  if stop_file < 0 then
    match n_files_get kind with
    | none => ⟨.error (.keyError kind), env.fs, []⟩
    | some n => load_body env kind start_file ((n : Int) - 1)
  else load_body env kind start_file stop_file

/-- Whether an effect is an `np.load` of a shard file. -/
def Effect.isLoad : Effect → Bool
  | .npLoad _ => true
  | _ => false

/-- Whether an effect is a `wget` subprocess invocation. -/
def Effect.isWget : Effect → Bool
  | .wgetCall _ _ => true
  | _ => false

/-- The local path `provide_file` returns for a shard, as a function of the
environment and the shard identity. -/
def shard_path (env : Env) (kind : String) (index : Int) : String :=
  os_path_join (data_dir env) (kind ++ "_" ++ toString index ++ ".npz")

/-- A concrete environment with an empty filesystem, no EOS mount, and a
succeeding download, used to instantiate the theorems. -/
def env0 : Env :=
  ⟨"/proj/src", [], false, none, fun _ e => (e : Int), fun _ e => (e : Int) + 1⟩

/-- A concrete environment whose cache directory already holds the first
two `train` shards. -/
def envCached : Env :=
  ⟨"/proj/src",
    ["/proj/src/data", "/proj/src/data/train_0.npz", "/proj/src/data/train_1.npz"],
    false, none, fun _ e => (e : Int), fun _ e => (e : Int) + 1⟩

/-- A concrete environment with no cache, no EOS mount, and a failing
download whose original cause stringifies to `"boom"`. -/
def envWgetFail : Env :=
  ⟨"/proj/src", [], false, some "boom", fun _ _ => 0, fun _ _ => 0⟩

/-! ### Lemmas about validation -/

theorem n_files_get_cases {kind : String} {n : Nat}
    (h : n_files_get kind = some n) :
    (kind = "train" ∧ n = 20) ∨ (kind = "valid" ∧ n = 8) ∨
      (kind = "test" ∧ n = 8) := by
  by_cases h1 : kind = "train"
  · subst h1; simp only [n_files_get, n_files, List.lookup] at h
    simp at h
    exact Or.inl ⟨rfl, h.symm⟩
  · by_cases h2 : kind = "valid"
    · subst h2; simp only [n_files_get, n_files, List.lookup] at h
      simp at h
      exact Or.inr (Or.inl ⟨rfl, h.symm⟩)
    · by_cases h3 : kind = "test"
      · subst h3; simp only [n_files_get, n_files, List.lookup] at h
        simp at h
        exact Or.inr (Or.inr ⟨rfl, h.symm⟩)
      · exfalso
        simp only [n_files_get, n_files, List.lookup] at h
        rw [show (kind == "train") = false from beq_eq_false_iff_ne.mpr h1,
          show (kind == "valid") = false from beq_eq_false_iff_ne.mpr h2,
          show (kind == "test") = false from beq_eq_false_iff_ne.mpr h3] at h
        simp at h

theorem check_ok_intro {kind : String} {n : Nat} {index : Int}
    (hg : n_files_get kind = some n) (h0 : 0 ≤ index) (h1 : index < (n : Int)) :
    _check_dataset_file kind index =
      .ok (kind ++ "_" ++ toString index ++ ".npz") := by
  unfold _check_dataset_file
  simp only [hg]
  rw [if_pos ⟨h0, h1⟩]

theorem check_none {kind : String} {index : Int}
    (hg : n_files_get kind = none) :
    _check_dataset_file kind index =
      .error (.valueError ("unknown dataset kind '" ++ kind ++
        "', must be one of " ++ "train,valid,test")) := by
  unfold _check_dataset_file
  simp only [hg]
  rfl

theorem check_oob {kind : String} {n : Nat} {index : Int}
    (hg : n_files_get kind = some n) (hb : index < 0 ∨ (n : Int) ≤ index) :
    _check_dataset_file kind index =
      .error (.valueError ("dataset '" ++ kind ++ "' has no file index " ++
        toString index)) := by
  unfold _check_dataset_file
  simp only [hg]
  rw [if_neg]
  rintro ⟨hh0, hh1⟩
  rcases hb with hb | hb <;> omega

theorem check_ok_name {kind : String} {index : Int} {f : String}
    (h : _check_dataset_file kind index = .ok f) :
    f = kind ++ "_" ++ toString index ++ ".npz" := by
  rcases hg : n_files_get kind with _ | n
  · rw [check_none hg] at h; simp at h
  · by_cases hb : 0 ≤ index ∧ index < (n : Int)
    · rw [check_ok_intro hg hb.1 hb.2] at h
      injection h with h'
      exact h'.symm
    · rw [check_oob hg (by omega)] at h; simp at h

theorem check_ok_bounds {kind : String} {index : Int} {f : String}
    (h : _check_dataset_file kind index = .ok f) :
    ∃ n, n_files_get kind = some n ∧ 0 ≤ index ∧ index < (n : Int) := by
  rcases hg : n_files_get kind with _ | n
  · rw [check_none hg] at h; simp at h
  · by_cases hb : 0 ≤ index ∧ index < (n : Int)
    · exact ⟨n, rfl, hb⟩
    · rw [check_oob hg (by omega)] at h; simp at h

/-! ### Lemmas about paths -/

theorem os_path_join_eq {a b : String} (hb : b.data.head? ≠ some '/')
    (ha : a.data.getLast? ≠ some '/') (ha2 : a.data ≠ []) :
    os_path_join a b = a ++ "/" ++ b := by
  unfold os_path_join
  rw [if_neg hb, if_neg]
  rintro (h | h)
  · exact ha h
  · exact ha2 h

theorem data_dir_data_ne_nil (env : Env) : (data_dir env).data ≠ [] := by
  unfold data_dir os_path_join
  rw [if_neg (by decide)]
  split <;>
  · intro h
    rw [String.data_append] at h
    rcases List.append_eq_nil.mp h with ⟨-, h2⟩
    exact absurd h2 (by decide)

theorem data_dir_getLast (env : Env) : (data_dir env).data.getLast? = some 'a' := by
  unfold data_dir os_path_join
  rw [if_neg (by decide)]
  split <;>
  · rw [String.data_append]
    rw [List.getLast?_append_of_ne_nil]
    · decide
    · decide

theorem shard_name_head {kind : String} {n : Nat}
    (hg : n_files_get kind = some n) (index : Int) :
    (kind ++ "_" ++ toString index ++ ".npz").data.head? ≠ some '/' := by
  rcases n_files_get_cases hg with ⟨hk, -⟩ | ⟨hk, -⟩ | ⟨hk, -⟩ <;> subst hk <;>
  · simp only [String.data_append]
    simp [List.head?_append]

theorem shard_path_eq {env : Env} {kind : String} {n : Nat}
    (hg : n_files_get kind = some n) (index : Int) :
    shard_path env kind index =
      data_dir env ++ "/" ++ (kind ++ "_" ++ toString index ++ ".npz") := by
  unfold shard_path
  refine os_path_join_eq (shard_name_head hg index) ?_ (data_dir_data_ne_nil env)
  rw [data_dir_getLast]
  decide

theorem append_sep_ne (a b : String) : a ++ "/" ++ b ≠ a := by
  intro h
  have hlen := congrArg String.length h
  rw [String.length_append, String.length_append] at hlen
  have h1 : "/".length = 1 := rfl
  omega

/-! ### Lemmas about `_wget`, `ensure_dir` and `provide_file` -/

theorem wget_pre_mem {fs : List String} {path x : String}
    (hx : x ∈ fs) (hp : path ∉ fs) : x ∈ (wget_pre fs path).1 := by
  unfold wget_pre
  by_cases h1 : os_path_dirname path ∈ fs
  · rw [if_neg (not_not_intro h1), if_neg hp]
    exact hx
  · rw [if_pos h1]
    exact List.mem_cons_of_mem _ hx

theorem wget_pre_no_load (fs : List String) (path : String) :
    (wget_pre fs path).2.filter Effect.isLoad = [] := by
  unfold wget_pre
  split_ifs <;> rfl

theorem _wget_trace (fs : List String) (we : Option String) (url path : String) :
    (_wget fs we url path).trace =
      (wget_pre fs path).2 ++ [Effect.wgetCall url path] := by
  cases we <;> rfl

theorem _wget_ok_result (fs : List String) (url path : String) :
    (_wget fs none url path).result = .ok path := rfl

theorem _wget_ok_fs (fs : List String) (url path : String) :
    (_wget fs none url path).fs = path :: (wget_pre fs path).1 := rfl

theorem _wget_err (fs : List String) (url path e : String) :
    _wget fs (some e) url path =
      ⟨.error (.exception ("download of url '" ++ url ++ "' failed: " ++ e)),
        (wget_pre fs path).1,
        (wget_pre fs path).2 ++ [Effect.wgetCall url path]⟩ := rfl

theorem ensure_dir_mem_dd (env : Env) : data_dir env ∈ (ensure_dir env).1 := by
  unfold ensure_dir
  by_cases h : data_dir env ∈ env.fs
  · rw [if_neg (not_not_intro h)]
    exact h
  · rw [if_pos h]
    exact List.mem_cons_self _ _

theorem ensure_dir_sub {env : Env} {x : String} (hx : x ∈ env.fs) :
    x ∈ (ensure_dir env).1 := by
  unfold ensure_dir
  by_cases h : data_dir env ∈ env.fs
  · rw [if_neg (not_not_intro h)]
    exact hx
  · rw [if_pos h]
    exact List.mem_cons_of_mem _ hx

theorem ensure_dir_eq (env : Env) :
    ensure_dir env =
      (if data_dir env ∈ env.fs then env.fs else data_dir env :: env.fs,
       if data_dir env ∈ env.fs then [] else [Effect.makedirs (data_dir env)]) := by
  unfold ensure_dir
  by_cases hd : data_dir env ∈ env.fs
  · rw [if_neg (not_not_intro hd), if_pos hd, if_pos hd]
  · rw [if_pos hd, if_neg hd, if_neg hd]

theorem ensure_dir_no_load (env : Env) :
    (ensure_dir env).2.filter Effect.isLoad = [] := by
  unfold ensure_dir
  split_ifs <;> rfl

theorem provide_file_error {env : Env} {kind : String} {index : Int} {e : PyErr}
    (hc : _check_dataset_file kind index = .error e) :
    provide_file env kind index = ⟨.error e, env.fs, []⟩ := by
  unfold provide_file
  simp only [hc]

theorem provide_file_hit {env : Env} {kind : String} {index : Int} {f : String}
    (hc : _check_dataset_file kind index = .ok f)
    (hf : os_path_join (data_dir env) f ∈ (ensure_dir env).1) :
    provide_file env kind index =
      ⟨.ok (os_path_join (data_dir env) f), (ensure_dir env).1,
        (ensure_dir env).2⟩ := by
  unfold provide_file
  simp only [hc]
  rw [if_pos hf]

theorem provide_file_copy {env : Env} {kind : String} {index : Int} {f : String}
    (hc : _check_dataset_file kind index = .ok f)
    (hf : os_path_join (data_dir env) f ∉ (ensure_dir env).1)
    (he : env.eos_readable = true) :
    provide_file env kind index =
      ⟨.ok (os_path_join (data_dir env) f),
        os_path_join (data_dir env) f :: (ensure_dir env).1,
        (ensure_dir env).2 ++
          [Effect.printMsg ("copy file from " ++ os_path_join eos_data_dir f),
            Effect.copyFile (os_path_join eos_data_dir f)
              (os_path_join (data_dir env) f)]⟩ := by
  unfold provide_file
  simp only [hc]
  rw [if_neg hf, if_pos he]

theorem provide_file_download {env : Env} {kind : String} {index : Int} {f : String}
    (hc : _check_dataset_file kind index = .ok f)
    (hf : os_path_join (data_dir env) f ∉ (ensure_dir env).1)
    (he : env.eos_readable = false) :
    provide_file env kind index =
      ⟨(_wget (ensure_dir env).1 env.wget_error
          (eos_data_url_format (urllib_quote "/") (urllib_quote f))
          (os_path_join (data_dir env) f)).result,
        (_wget (ensure_dir env).1 env.wget_error
          (eos_data_url_format (urllib_quote "/") (urllib_quote f))
          (os_path_join (data_dir env) f)).fs,
        (ensure_dir env).2 ++
          [Effect.printMsg ("wget file from " ++
            eos_data_url_format (urllib_quote "/") (urllib_quote f))] ++
          (_wget (ensure_dir env).1 env.wget_error
            (eos_data_url_format (urllib_quote "/") (urllib_quote f))
            (os_path_join (data_dir env) f)).trace⟩ := by
  unfold provide_file
  simp only [hc]
  rw [if_neg hf, if_neg (by simp [he])]

theorem provide_file_ok_result {env : Env} {kind : String} {index : Int}
    {f : String} (hc : _check_dataset_file kind index = .ok f)
    (hw : env.wget_error = none) :
    (provide_file env kind index).result =
      .ok (os_path_join (data_dir env) f) := by
  by_cases hf : os_path_join (data_dir env) f ∈ (ensure_dir env).1
  · rw [provide_file_hit hc hf]
  · cases he : env.eos_readable
    · rw [provide_file_download hc hf he]
      dsimp only
      rw [hw]
      exact _wget_ok_result _ _ _
    · rw [provide_file_copy hc hf he]

theorem provide_file_ok_post {env : Env} {kind : String} {index : Int}
    {f p : String} (hc : _check_dataset_file kind index = .ok f)
    (hr : (provide_file env kind index).result = .ok p) :
    p = os_path_join (data_dir env) f ∧
      os_path_join (data_dir env) f ∈ (provide_file env kind index).fs ∧
      data_dir env ∈ (provide_file env kind index).fs := by
  by_cases hf : os_path_join (data_dir env) f ∈ (ensure_dir env).1
  · rw [provide_file_hit hc hf] at hr ⊢
    dsimp only at hr ⊢
    injection hr with hr'
    exact ⟨hr'.symm, hf, ensure_dir_mem_dd env⟩
  · cases he : env.eos_readable
    · rw [provide_file_download hc hf he] at hr ⊢
      dsimp only at hr ⊢
      cases hw : env.wget_error with
      | none =>
          rw [hw, _wget_ok_result] at hr
          injection hr with hr'
          refine ⟨hr'.symm, ?_, ?_⟩
          · rw [_wget_ok_fs]
            exact List.mem_cons_self _ _
          · rw [_wget_ok_fs]
            exact List.mem_cons_of_mem _ (wget_pre_mem (ensure_dir_mem_dd env) hf)
      | some e =>
          rw [hw, _wget_err] at hr
          simp at hr
    · rw [provide_file_copy hc hf he] at hr ⊢
      dsimp only at hr ⊢
      injection hr with hr'
      exact ⟨hr'.symm, List.mem_cons_self _ _,
        List.mem_cons_of_mem _ (ensure_dir_mem_dd env)⟩

theorem provide_file_no_load (env : Env) (kind : String) (index : Int) :
    (provide_file env kind index).trace.filter Effect.isLoad = [] := by
  cases hc : _check_dataset_file kind index with
  | error e =>
      rw [provide_file_error hc]
      rfl
  | ok f =>
    by_cases hf : os_path_join (data_dir env) f ∈ (ensure_dir env).1
    · rw [provide_file_hit hc hf]
      exact ensure_dir_no_load env
    · cases he : env.eos_readable
      · rw [provide_file_download hc hf he]
        dsimp only
        rw [List.filter_append, List.filter_append, ensure_dir_no_load,
          _wget_trace, List.filter_append, wget_pre_no_load]
        rfl
      · rw [provide_file_copy hc hf he]
        dsimp only
        rw [List.filter_append, ensure_dir_no_load]
        rfl

/-! ### Lemmas about `pyRange`, `provide_all` and `fill_loop` -/

theorem pyRange_length (a b : Int) : (pyRange a b).length = (b - a).toNat := by
  rw [pyRange, List.length_map, List.length_range]

theorem pyRange_nil {a b : Int} (h : b ≤ a) : pyRange a b = [] := by
  have h0 : (b - a).toNat = 0 := by omega
  simp [pyRange, h0]

theorem pyRange_get (a b : Int) (k : Nat) (hk : k < (pyRange a b).length) :
    (pyRange a b).get ⟨k, hk⟩ = a + (k : Int) := by
  rw [List.get_eq_getElem]
  unfold pyRange
  rw [List.getElem_map, List.getElem_range]

theorem provide_all_ok {env : Env} {kind : String} (hw : env.wget_error = none)
    (idxs : List Int) :
    ∀ (fs : List String),
      (∀ i ∈ idxs, ∃ f, _check_dataset_file kind i = .ok f) →
      (provide_all env kind idxs fs).result =
        .ok (idxs.map (shard_path env kind)) := by
  induction idxs with
  | nil => intro fs _; rfl
  | cons i rest ih =>
    intro fs hv
    obtain ⟨f, hf⟩ := hv i (List.mem_cons_self i rest)
    have hres := @provide_file_ok_result { env with fs := fs } kind i f hf hw
    unfold provide_all
    simp only [hres]
    have hrec := ih (provide_file { env with fs := fs } kind i).fs
      (fun j hj => hv j (List.mem_cons_of_mem i hj))
    simp only [hrec]
    have hname : f = kind ++ "_" ++ toString i ++ ".npz" := check_ok_name hf
    subst hname
    rfl

theorem provide_all_no_load (env : Env) (kind : String) (idxs : List Int) :
    ∀ (fs : List String),
      (provide_all env kind idxs fs).trace.filter Effect.isLoad = [] := by
  induction idxs with
  | nil => intro fs; rfl
  | cons i rest ih =>
    intro fs
    unfold provide_all
    cases hr : (provide_file { env with fs := fs } kind i).result with
    | error e =>
        simp only [hr]
        exact provide_file_no_load _ kind i
    | ok p =>
        simp only [hr]
        cases hr2 : (provide_all env kind rest
            (provide_file { env with fs := fs } kind i).fs).result with
        | error e =>
            simp only [hr2]
            rw [List.filter_append, provide_file_no_load, ih]
            rfl
        | ok ps =>
            simp only [hr2]
            rw [List.filter_append, provide_file_no_load, ih]
            rfl

theorem fill_loop_trace (env : Env) (paths : List String) :
    ∀ (j : Nat) (v l : NDArr),
      (fill_loop env paths j v l).2.2 = paths.map Effect.npLoad := by
  induction paths with
  | nil => intro j v l; rfl
  | cons p rest ih =>
    intro j v l
    unfold fill_loop
    dsimp only
    rw [ih]
    rfl

theorem fill_loop_shape (env : Env) (paths : List String) :
    ∀ (j : Nat) (v l : NDArr),
      (fill_loop env paths j v l).1.shape = v.shape ∧
      (fill_loop env paths j v l).1.dtype = v.dtype ∧
      (fill_loop env paths j v l).2.1.shape = l.shape ∧
      (fill_loop env paths j v l).2.1.dtype = l.dtype := by
  induction paths with
  | nil => intro j v l; exact ⟨rfl, rfl, rfl, rfl⟩
  | cons p rest ih =>
    intro j v l
    unfold fill_loop
    dsimp only
    exact ih (j + 1) _ _

theorem fill_loop_below (env : Env) (paths : List String) :
    ∀ (j : Nat) (v l : NDArr) (i : Nat), i < j * n_events_per_file →
      (fill_loop env paths j v l).1.elem i = v.elem i ∧
      (fill_loop env paths j v l).2.1.elem i = l.elem i := by
  induction paths with
  | nil => intro j v l i _; exact ⟨rfl, rfl⟩
  | cons p rest ih =>
    intro j v l i hi
    unfold fill_loop
    dsimp only
    have h2 : i < (j + 1) * n_events_per_file :=
      lt_of_lt_of_le hi (Nat.mul_le_mul_right _ (Nat.le_succ j))
    obtain ⟨hv, hl⟩ := ih (j + 1) _ _ i h2
    rw [hv, hl]
    unfold slice_set
    dsimp only
    constructor <;>
    · rw [if_neg]
      rintro ⟨hle, -⟩
      exact Nat.not_le_of_lt hi hle
theorem fill_loop_at (env : Env) (paths : List String) :
    ∀ (j : Nat) (v l : NDArr) (k : Nat) (hk : k < paths.length) (e : Nat),
      e < n_events_per_file →
      (fill_loop env paths j v l).1.elem ((j + k) * n_events_per_file + e) =
        env.shard_vec (paths.get ⟨k, hk⟩) e ∧
      (fill_loop env paths j v l).2.1.elem ((j + k) * n_events_per_file + e) =
        env.shard_label (paths.get ⟨k, hk⟩) e := by
  induction paths with
  | nil => intro j v l k hk; exact absurd hk (Nat.not_lt_zero k)
  | cons p rest ih =>
    intro j v l k hk e he
    unfold fill_loop
    dsimp only
    cases k with
    | zero =>
      have hlt : j * n_events_per_file + e < (j + 1) * n_events_per_file := by
        rw [Nat.succ_mul]
        exact Nat.add_lt_add_left he _
      obtain ⟨hv, hl⟩ := fill_loop_below env rest (j + 1)
        (slice_set v (j * n_events_per_file)
          (j * n_events_per_file + n_events_per_file) (env.shard_vec p))
        (slice_set l (j * n_events_per_file)
          (j * n_events_per_file + n_events_per_file) (env.shard_label p))
        (j * n_events_per_file + e) hlt
      refine ⟨hv.trans ?_, hl.trans ?_⟩
      · unfold slice_set
        dsimp only
        rw [if_pos ⟨Nat.le_add_right _ _, Nat.add_lt_add_left he _⟩,
          Nat.add_sub_cancel_left]
        rfl
      · unfold slice_set
        dsimp only
        rw [if_pos ⟨Nat.le_add_right _ _, Nat.add_lt_add_left he _⟩,
          Nat.add_sub_cancel_left]
        rfl
    | succ q =>
      rw [show j + (q + 1) = (j + 1) + q from by omega]
      exact ih (j + 1) _ _ q (Nat.lt_of_succ_lt_succ hk) e he

theorem load_body_eq {env : Env} {kind : String} {start stop : Int}
    {ps : List String}
    (hpa : (provide_all env kind (pyRange start stop) env.fs).result = .ok ps) :
    load_body env kind start stop =
      ⟨.ok ((fill_loop env ps 0
          (np_zeros [ps.length * n_events_per_file, n_constituents, 4])
          (np_zeros [ps.length * n_events_per_file])).1,
        (fill_loop env ps 0
          (np_zeros [ps.length * n_events_per_file, n_constituents, 4])
          (np_zeros [ps.length * n_events_per_file])).2.1),
        (provide_all env kind (pyRange start stop) env.fs).fs,
        (provide_all env kind (pyRange start stop) env.fs).trace ++
          [Effect.allocZeros [ps.length * n_events_per_file, n_constituents, 4]
            [ps.length * n_events_per_file] "float32"] ++
          (fill_loop env ps 0
            (np_zeros [ps.length * n_events_per_file, n_constituents, 4])
            (np_zeros [ps.length * n_events_per_file])).2.2⟩ := by
  unfold load_body
  simp only [hpa]

theorem provide_all_cons_error {env : Env} {kind : String} {i : Int}
    {rest : List Int} {fs : List String} {e : PyErr}
    (he : (provide_file { env with fs := fs } kind i).result = .error e) :
    provide_all env kind (i :: rest) fs =
      ⟨.error e, (provide_file { env with fs := fs } kind i).fs,
        (provide_file { env with fs := fs } kind i).trace⟩ := by
  unfold provide_all
  simp only [he]

theorem pyRange_mem {a b i : Int} : i ∈ pyRange a b ↔ a ≤ i ∧ i < b := by
  simp only [pyRange, List.mem_map, List.mem_range]
  constructor
  · rintro ⟨k, hk, rfl⟩
    omega
  · rintro ⟨h1, h2⟩
    exact ⟨(i - a).toNat, by omega, by omega⟩

theorem pyRange_cons {a b : Int} (h : a < b) :
    pyRange a b = a :: pyRange (a + 1) b := by
  unfold pyRange
  have hm : (b - a).toNat = (b - (a + 1)).toNat + 1 := by omega
  rw [hm, List.range_succ_eq_map, List.map_cons, List.map_map]
  have hfun : ((fun (k : Nat) => a + (k : Int)) ∘ Nat.succ) =
      (fun (k : Nat) => (a + 1) + (k : Int)) := by
    funext k
    simp only [Function.comp_apply, Nat.succ_eq_add_one]
    push_cast
    ring
  rw [hfun]
  simp

theorem pyRange_zero (m : Nat) :
    pyRange 0 (m : Int) = (List.range m).map (fun (k : Nat) => (k : Int)) := by
  unfold pyRange
  have hm : ((m : Int) - 0).toNat = m := by omega
  rw [hm]
  simp

theorem filter_isLoad_map_npLoad (l : List String) :
    (l.map Effect.npLoad).filter Effect.isLoad = l.map Effect.npLoad := by
  induction l with
  | nil => rfl
  | cons p rest ih => simp [Effect.isLoad, ih]

theorem wget_pre_no_wget (fs : List String) (path : String) :
    (wget_pre fs path).2.filter Effect.isWget = [] := by
  unfold wget_pre
  split_ifs <;> rfl

theorem ensure_dir_no_wget (env : Env) :
    (ensure_dir env).2.filter Effect.isWget = [] := by
  unfold ensure_dir
  split_ifs <;> rfl

theorem ensure_dir_mem_inv {env : Env} {x : String}
    (hx : x ∈ (ensure_dir env).1) : x = data_dir env ∨ x ∈ env.fs := by
  unfold ensure_dir at hx
  by_cases h : data_dir env ∈ env.fs
  · rw [if_neg (not_not_intro h)] at hx
    exact Or.inr hx
  · rw [if_pos h] at hx
    rcases List.mem_cons.mp hx with h1 | h1
    · exact Or.inl h1
    · exact Or.inr h1

theorem data_dir_set_fs (env : Env) (x : List String) :
    data_dir { env with fs := x } = data_dir env := rfl

theorem head?_append_left {s t : String} {c : Char}
    (h : s.data.head? = some c) : (s ++ t).data.head? = some c := by
  rw [String.data_append]
  obtain ⟨hd, tl, hcons⟩ := List.exists_cons_of_ne_nil
    (show s.data ≠ [] from fun hnil => by rw [hnil] at h; simp at h)
  rw [hcons] at h ⊢
  simpa using h

theorem data_dir_head {env : Env} {c : Char}
    (h : env.this_dir.data.head? = some c) :
    (data_dir env).data.head? = some c := by
  unfold data_dir
  unfold os_path_join
  rw [if_neg (by decide)]
  split
  · exact head?_append_left h
  · exact head?_append_left (head?_append_left h)
/-! ### Claim theorems -/

/-- C1 (amended). For every `kind` outside `{train, valid, test}`:
`provide_file` fails with a `ValueError` naming the offending value and the
valid kinds, before any filesystem or network I/O, for all indices.
`load_data` also fails before any I/O, but not always with that error: when
`stop_file` is negative (including the default `-1`) it raises a `KeyError`
naming only the offending kind (the `n_files[kind] - 1` dict access on
line 112); when `stop_file ≥ 0` and `start_file < stop_file` it raises the
same `ValueError`; and when `stop_file ≥ 0` and `start_file ≥ stop_file` it
does not fail at all, returning empty arrays without validating the kind. -/
theorem spec_c1 (env : Env) {kind : String} (hg : n_files_get kind = none)
    (index start stop : Int) :
    provide_file env kind index =
      ⟨.error (.valueError ("unknown dataset kind '" ++ kind ++
        "', must be one of " ++ "train,valid,test")), env.fs, []⟩ ∧
    (stop < 0 → load_data env kind start stop =
      ⟨.error (.keyError kind), env.fs, []⟩) ∧
    (0 ≤ stop → start < stop → load_data env kind start stop =
      ⟨.error (.valueError ("unknown dataset kind '" ++ kind ++
        "', must be one of " ++ "train,valid,test")), env.fs, []⟩) ∧
    (0 ≤ stop → stop ≤ start →
      (load_data env kind start stop).result =
        .ok (np_zeros [0, 200, 4], np_zeros [0])) := by
  refine ⟨provide_file_error (check_none hg), ?_, ?_, ?_⟩
  · intro hstop
    unfold load_data
    rw [if_pos hstop]
    simp only [hg]
  · intro h0 hlt
    unfold load_data
    rw [if_neg (by omega)]
    unfold load_body
    rw [pyRange_cons hlt]
    have hpf := @provide_file_error { env with fs := env.fs } kind start _
      (@check_none kind start hg)
    have hres : (provide_file { env with fs := env.fs } kind start).result =
        .error (.valueError ("unknown dataset kind '" ++ kind ++
          "', must be one of " ++ "train,valid,test")) := by rw [hpf]
    rw [provide_all_cons_error hres]
    dsimp only
    rw [hpf]
  · intro h0 hle
    unfold load_data
    rw [if_neg (by omega)]
    unfold load_body
    rw [pyRange_nil hle]
    rfl

/-- C1, counterexample to the claim as frozen: for the invalid kind
`"unknown"`, `load_data` with an empty non-negative range returns empty
arrays with no error at all, and with the default negative stop it raises a
`KeyError`, not the invalid-argument `ValueError`. -/
theorem spec_c1_counterexample :
    (load_data env0 "unknown" 0 0).result =
      .ok (np_zeros [0, 200, 4], np_zeros [0]) ∧
    load_data env0 "unknown" 0 (-1) =
      ⟨.error (.keyError "unknown"), [], []⟩ := by
  constructor
  · rfl
  · rfl

theorem spec_c1_witness :
    n_files_get "unknown" = none ∧
    (provide_file env0 "unknown" 3 =
      ⟨.error (.valueError ("unknown dataset kind '" ++ "unknown" ++
        "', must be one of " ++ "train,valid,test")), env0.fs, []⟩ ∧
    ((0 : Int) < 0 → load_data env0 "unknown" 0 0 =
      ⟨.error (.keyError "unknown"), env0.fs, []⟩) ∧
    ((0 : Int) ≤ 0 → (0 : Int) < 0 → load_data env0 "unknown" 0 0 =
      ⟨.error (.valueError ("unknown dataset kind '" ++ "unknown" ++
        "', must be one of " ++ "train,valid,test")), env0.fs, []⟩) ∧
    ((0 : Int) ≤ 0 → (0 : Int) ≤ 0 →
      (load_data env0 "unknown" 0 0).result =
        .ok (np_zeros [0, 200, 4], np_zeros [0]))) :=
  ⟨by decide, spec_c1 env0 (by decide) 3 0 0⟩

/-- C3. For every valid kind and every integer index out of bounds
(`index < 0` or `index ≥ shard_count(kind)`), `provide_file` fails with a
`ValueError` naming the kind and the index, performing no I/O (empty trace,
filesystem unchanged); for in-bounds indices no invalid-argument error is
raised. -/
theorem spec_c3 (env : Env) {kind : String} {n : Nat}
    (hg : n_files_get kind = some n) (index : Int) :
    ((index < 0 ∨ (n : Int) ≤ index) →
      provide_file env kind index =
        ⟨.error (.valueError ("dataset '" ++ kind ++ "' has no file index " ++
          toString index)), env.fs, []⟩) ∧
    (0 ≤ index → index < (n : Int) →
      ∀ m, (provide_file env kind index).result ≠ .error (.valueError m)) := by
  constructor
  · intro hb
    exact provide_file_error (check_oob hg hb)
  · intro h0 h1 m
    have hc := check_ok_intro hg h0 h1
    by_cases hf : os_path_join (data_dir env)
        (kind ++ "_" ++ toString index ++ ".npz") ∈ (ensure_dir env).1
    · rw [provide_file_hit hc hf]
      simp
    · cases he : env.eos_readable
      · rw [provide_file_download hc hf he]
        dsimp only
        cases hw : env.wget_error
        · rw [_wget_ok_result]
          simp
        · rw [_wget_err]
          simp
      · rw [provide_file_copy hc hf he]
        simp

theorem spec_c3_witness :
    n_files_get "train" = some 20 ∧
    ((((20 : Int) < 0 ∨ (20 : Nat) ≤ (20 : Int)) →
      provide_file env0 "train" 20 =
        ⟨.error (.valueError ("dataset '" ++ "train" ++ "' has no file index " ++
          toString (20 : Int))), env0.fs, []⟩) ∧
    ((0 : Int) ≤ 20 → (20 : Int) < (20 : Nat) →
      ∀ m, (provide_file env0 "train" 20).result ≠ .error (.valueError m))) :=
  ⟨by decide, spec_c3 env0 (by decide) 20⟩

/-- C4. For every valid `(kind, index)` whose shard file is already in the
local cache, `provide_file` returns its path via the cache-hit branch: no
copy, no download, no removal — the only possible filesystem change and
effect is creating the cache directory if it was absent. -/
theorem spec_c4 (env : Env) {kind : String} {index : Int} {f : String}
    (hc : _check_dataset_file kind index = .ok f)
    (hf : os_path_join (data_dir env) f ∈ env.fs) :
    provide_file env kind index =
      ⟨.ok (os_path_join (data_dir env) f),
        if data_dir env ∈ env.fs then env.fs else data_dir env :: env.fs,
        if data_dir env ∈ env.fs then [] else [Effect.makedirs (data_dir env)]⟩ := by
  rw [provide_file_hit hc (ensure_dir_sub hf), ensure_dir_eq]

theorem spec_c4_witness :
    _check_dataset_file "train" 0 = .ok "train_0.npz" ∧
    os_path_join (data_dir envCached) "train_0.npz" ∈ envCached.fs ∧
    provide_file envCached "train" 0 =
      ⟨.ok (os_path_join (data_dir envCached) "train_0.npz"),
        if data_dir envCached ∈ envCached.fs then envCached.fs
          else data_dir envCached :: envCached.fs,
        if data_dir envCached ∈ envCached.fs then []
          else [Effect.makedirs (data_dir envCached)]⟩ :=
  ⟨rfl, by decide, spec_c4 envCached rfl (by decide)⟩
/-- C5. Whenever `provide_file` succeeds (in any of the three branches:
cache hit, mount copy, or download), the returned path is the cache
directory joined with `"{kind}_{index}.npz"`; it is absolute whenever
`this_dir` is absolute (which `os.path.abspath` guarantees), and the final
path component `"{kind}_{index}.npz"` contains no separator. -/
theorem spec_c5 {env : Env} {kind : String} {index : Int} {p : String}
    (habs : env.this_dir.data.head? = some '/')
    (hr : (provide_file env kind index).result = .ok p) :
    p = data_dir env ++ "/" ++ (kind ++ "_" ++ toString index ++ ".npz") ∧
    p.data.head? = some '/' ∧
    ('/' : Char) ∉ (kind ++ "_" ++ toString index ++ ".npz").data := by
  rcases hc : _check_dataset_file kind index with e | f
  · rw [provide_file_error hc] at hr
    simp at hr
  · obtain ⟨hp, -, -⟩ := provide_file_ok_post hc hr
    have hname := check_ok_name hc
    subst hname
    obtain ⟨n, hg, h0, h1⟩ := check_ok_bounds hc
    have hn20 : n ≤ 20 := by
      rcases n_files_get_cases hg with ⟨-, rfl⟩ | ⟨-, rfl⟩ | ⟨-, rfl⟩ <;> omega
    have hjoin : os_path_join (data_dir env)
        (kind ++ "_" ++ toString index ++ ".npz") =
        data_dir env ++ "/" ++ (kind ++ "_" ++ toString index ++ ".npz") := by
      refine os_path_join_eq (shard_name_head hg index) ?_ (data_dir_data_ne_nil env)
      rw [data_dir_getLast]
      decide
    rw [hjoin] at hp
    refine ⟨hp, ?_, ?_⟩
    · rw [hp]
      exact head?_append_left (head?_append_left (data_dir_head habs))
    · have hdig : ∀ m : Nat, m < 20 → ('/' : Char) ∉ (toString m).data := by decide
      obtain ⟨m, rfl⟩ : ∃ m : Nat, index = (m : Int) :=
        ⟨index.toNat, (Int.toNat_of_nonneg h0).symm⟩
      have hm20 : m < 20 := by omega
      have hts : toString ((m : Nat) : Int) = toString m := rfl
      rw [hts]
      rcases n_files_get_cases hg with ⟨rfl, -⟩ | ⟨rfl, -⟩ | ⟨rfl, -⟩ <;>
      · simp only [String.data_append, List.mem_append, not_or]
        exact ⟨⟨⟨by decide, by decide⟩, hdig m hm20⟩, by decide⟩

theorem spec_c5_witness :
    env0.this_dir.data.head? = some '/' ∧
    (provide_file env0 "train" 0).result = .ok "/proj/src/data/train_0.npz" ∧
    ("/proj/src/data/train_0.npz" =
      data_dir env0 ++ "/" ++ ("train" ++ "_" ++ toString (0 : Int) ++ ".npz") ∧
    ("/proj/src/data/train_0.npz" : String).data.head? = some '/' ∧
    ('/' : Char) ∉ ("train" ++ "_" ++ toString (0 : Int) ++ ".npz").data) :=
  ⟨by decide, rfl, spec_c5 (by decide) rfl⟩

/-- C8. When the shard is not cached, the EOS mount is not readable, and
the `wget` subprocess fails with original cause `e`, `provide_file` raises
exactly one wrapping `Exception` whose message contains the failing URL and
the stringified original cause; the trace contains exactly one `wget`
invocation (the download is not retried), and the error is the result
propagated to the caller (nothing catches it). -/
theorem spec_c8 {env : Env} {kind : String} {index : Int} {f e : String}
    (hc : _check_dataset_file kind index = .ok f)
    (hcache : os_path_join (data_dir env) f ∉ env.fs)
    (heos : env.eos_readable = false)
    (hw : env.wget_error = some e) :
    (provide_file env kind index).result =
      .error (.exception ("download of url '" ++
        eos_data_url_format (urllib_quote "/") (urllib_quote f) ++
        "' failed: " ++ e)) ∧
    ((provide_file env kind index).trace.filter Effect.isWget).length = 1 := by
  have hname := check_ok_name hc
  obtain ⟨n, hg, h0, h1⟩ := check_ok_bounds hc
  have hjoin : os_path_join (data_dir env) f = data_dir env ++ "/" ++ f := by
    subst hname
    exact os_path_join_eq (shard_name_head hg index)
      (by rw [data_dir_getLast]; decide) (data_dir_data_ne_nil env)
  have hfp : os_path_join (data_dir env) f ∉ (ensure_dir env).1 := by
    intro hmem
    rcases ensure_dir_mem_inv hmem with hdd | hfs
    · rw [hjoin] at hdd
      exact append_sep_ne _ _ hdd
    · exact hcache hfs
  rw [provide_file_download hc hfp heos]
  dsimp only
  rw [hw]
  refine ⟨?_, ?_⟩
  · rw [_wget_err]
  · rw [_wget_trace]
    simp [List.filter_append, ensure_dir_no_wget, wget_pre_no_wget, Effect.isWget]

theorem spec_c8_witness :
    _check_dataset_file "train" 0 = .ok "train_0.npz" ∧
    os_path_join (data_dir envWgetFail) "train_0.npz" ∉ envWgetFail.fs ∧
    envWgetFail.eos_readable = false ∧
    envWgetFail.wget_error = some "boom" ∧
    ((provide_file envWgetFail "train" 0).result =
      .error (.exception ("download of url '" ++
        eos_data_url_format (urllib_quote "/") (urllib_quote "train_0.npz") ++
        "' failed: " ++ "boom")) ∧
    ((provide_file envWgetFail "train" 0).trace.filter Effect.isWget).length = 1) :=
  ⟨rfl, by decide, rfl, rfl, spec_c8 rfl (by decide) rfl rfl⟩

/-- C9. `provide_file` is idempotent: after any successful call, a second
call with the same arguments on the resulting filesystem returns the
identical path through the pure cache-hit branch, performs no effects at
all (empty trace: no copy, no download, no removal — the cached content is
untouched), and leaves the filesystem unchanged. -/
theorem spec_c9 {env : Env} {kind : String} {index : Int} {p : String}
    (hok : (provide_file env kind index).result = .ok p) :
    provide_file { env with fs := (provide_file env kind index).fs } kind index =
      ⟨.ok p, (provide_file env kind index).fs, []⟩ := by
  rcases hc : _check_dataset_file kind index with e | f
  · rw [provide_file_error hc] at hok
    simp at hok
  · obtain ⟨hp, hmemfp, hmemdd⟩ := provide_file_ok_post hc hok
    subst hp
    have hf2 : os_path_join
        (data_dir { env with fs := (provide_file env kind index).fs }) f ∈
        (ensure_dir { env with fs := (provide_file env kind index).fs }).1 :=
      ensure_dir_sub hmemfp
    rw [provide_file_hit hc hf2, ensure_dir_eq]
    rw [data_dir_set_fs]
    dsimp only
    rw [if_pos hmemdd, if_pos hmemdd]

theorem spec_c9_witness :
    (provide_file env0 "train" 0).result = .ok "/proj/src/data/train_0.npz" ∧
    provide_file { env0 with fs := (provide_file env0 "train" 0).fs } "train" 0 =
      ⟨.ok "/proj/src/data/train_0.npz", (provide_file env0 "train" 0).fs, []⟩ :=
  ⟨rfl, spec_c9 rfl⟩
/-- C2. For every valid kind, `load_data` with a negative `stop_file` (the
default `-1`) sets the stop index to `shard_count(kind) - 1` and therefore
reads exactly the shards `0` through `shard_count(kind) - 2` inclusive, in
that order — the final shard is excluded. Stated for any environment in
which provisioning succeeds. -/
theorem spec_c2 {env : Env} {kind : String} {n : Nat} {stop : Int}
    (hg : n_files_get kind = some n) (hstop : stop < 0)
    (hw : env.wget_error = none) :
    ∃ v l, (load_data env kind 0 stop).result = .ok (v, l) ∧
      (load_data env kind 0 stop).trace.filter Effect.isLoad =
        (List.range (n - 1)).map
          (fun (i : Nat) => Effect.npLoad (shard_path env kind (i : Int))) := by
  unfold load_data
  rw [if_pos hstop]
  simp only [hg]
  have hvalid : ∀ i ∈ pyRange 0 ((n : Int) - 1),
      ∃ f, _check_dataset_file kind i = .ok f := by
    intro i hi
    obtain ⟨hla, hlb⟩ := pyRange_mem.mp hi
    exact ⟨_, check_ok_intro hg (by omega) (by omega)⟩
  have hpa := provide_all_ok hw (pyRange 0 ((n : Int) - 1)) env.fs hvalid
  rw [load_body_eq hpa]
  refine ⟨_, _, rfl, ?_⟩
  dsimp only
  rw [List.filter_append, List.filter_append, provide_all_no_load,
    fill_loop_trace]
  rw [filter_isLoad_map_npLoad]
  have h1n : 1 ≤ n := by
    rcases n_files_get_cases hg with ⟨-, rfl⟩ | ⟨-, rfl⟩ | ⟨-, rfl⟩ <;> omega
  have hcast : (n : Int) - 1 = ((n - 1 : Nat) : Int) := by omega
  rw [hcast, pyRange_zero, List.map_map, List.map_map]
  rfl

theorem spec_c2_witness :
    n_files_get "train" = some 20 ∧ ((-1 : Int) < 0) ∧
    env0.wget_error = none ∧
    (∃ v l, (load_data env0 "train" 0 (-1)).result = .ok (v, l) ∧
      (load_data env0 "train" 0 (-1)).trace.filter Effect.isLoad =
        (List.range (20 - 1)).map
          (fun (i : Nat) => Effect.npLoad (shard_path env0 "train" (i : Int)))) :=
  ⟨by decide, by decide, rfl, spec_c2 (by decide) (by decide) rfl⟩

/-- C10. Whenever the file range is empty after the negative-stop default
is applied — `stop_file ≥ 0` with `start_file ≥ stop_file` (for any kind,
even an invalid one), or `stop_file < 0` with
`start_file ≥ shard_count(kind) - 1` — `load_data` returns, without error
and without validating `start_file`/`stop_file` themselves, empty arrays
of shapes `(0, 200, 4)` and `(0,)`, provisioning no shards: its only
effect is the size-zero allocation. -/
theorem spec_c10 (env : Env) (kind : String) (start stop : Int)
    (h : (0 ≤ stop ∧ stop ≤ start) ∨
      (stop < 0 ∧ ∃ n, n_files_get kind = some n ∧ (n : Int) - 1 ≤ start)) :
    load_data env kind start stop =
      ⟨.ok (np_zeros [0, 200, 4], np_zeros [0]), env.fs,
        [Effect.allocZeros [0, 200, 4] [0] "float32"]⟩ := by
  unfold load_data
  rcases h with ⟨h1, h2⟩ | ⟨h1, n, hg, h2⟩
  · rw [if_neg (by omega)]
    unfold load_body
    rw [pyRange_nil h2]
    rfl
  · rw [if_pos h1]
    simp only [hg]
    unfold load_body
    rw [pyRange_nil h2]
    rfl

theorem spec_c10_witness :
    ((0 : Int) ≤ 0 ∧ (0 : Int) ≤ 5) ∧
    load_data env0 "test" 5 0 =
      ⟨.ok (np_zeros [0, 200, 4], np_zeros [0]), env0.fs,
        [Effect.allocZeros [0, 200, 4] [0] "float32"]⟩ :=
  ⟨⟨by decide, by decide⟩,
    spec_c10 env0 "test" 5 0 (Or.inl ⟨by decide, by decide⟩)⟩
theorem pyRange_getElem (a b : Int) (k : Nat) (hk : k < (pyRange a b).length) :
    (pyRange a b)[k] = a + (k : Int) := by
  unfold pyRange at hk ⊢
  rw [List.getElem_map, List.getElem_range]

theorem pyRange_map_get {α : Type} (g : Int → α) (a b : Int) (k : Nat)
    (hk : k < ((pyRange a b).map g).length) :
    ((pyRange a b).map g).get ⟨k, hk⟩ = g (a + (k : Int)) := by
  rw [List.get_eq_getElem, List.getElem_map, pyRange_getElem]

theorem load_body_alloc {env : Env} {kind : String} {n : Nat} {start stop : Int}
    (hg : n_files_get kind = some n) (h0 : 0 ≤ start) (h1 : start ≤ stop)
    (h2 : stop ≤ (n : Int)) (hw : env.wget_error = none) :
    ∃ v l t1 t2,
      (load_body env kind start stop).result = .ok (v, l) ∧
      (load_body env kind start stop).trace =
        t1 ++ Effect.allocZeros
          [(stop - start).toNat * n_events_per_file, n_constituents, 4]
          [(stop - start).toNat * n_events_per_file] "float32" :: t2 ∧
      t1.filter Effect.isLoad = [] ∧
      v.shape = [(stop - start).toNat * n_events_per_file, n_constituents, 4] ∧
      v.dtype = "float32" ∧
      l.shape = [(stop - start).toNat * n_events_per_file] ∧
      l.dtype = "float32" := by
  have hvalid : ∀ i ∈ pyRange start stop,
      ∃ f, _check_dataset_file kind i = .ok f := by
    intro i hi
    obtain ⟨hla, hlb⟩ := pyRange_mem.mp hi
    exact ⟨_, check_ok_intro hg (by omega) (by omega)⟩
  have hpa := provide_all_ok hw (pyRange start stop) env.fs hvalid
  have hlen : ((pyRange start stop).map (shard_path env kind)).length =
      (stop - start).toNat := by
    rw [List.length_map, pyRange_length]
  obtain ⟨hsh1, hsh2, hsh3, hsh4⟩ := fill_loop_shape env
    ((pyRange start stop).map (shard_path env kind)) 0
    (np_zeros [((pyRange start stop).map (shard_path env kind)).length *
      n_events_per_file, n_constituents, 4])
    (np_zeros [((pyRange start stop).map (shard_path env kind)).length *
      n_events_per_file])
  rw [load_body_eq hpa]
  refine ⟨(fill_loop env ((pyRange start stop).map (shard_path env kind)) 0
      (np_zeros [((pyRange start stop).map (shard_path env kind)).length *
        n_events_per_file, n_constituents, 4])
      (np_zeros [((pyRange start stop).map (shard_path env kind)).length *
        n_events_per_file])).1,
    (fill_loop env ((pyRange start stop).map (shard_path env kind)) 0
      (np_zeros [((pyRange start stop).map (shard_path env kind)).length *
        n_events_per_file, n_constituents, 4])
      (np_zeros [((pyRange start stop).map (shard_path env kind)).length *
        n_events_per_file])).2.1,
    (provide_all env kind (pyRange start stop) env.fs).trace,
    (fill_loop env ((pyRange start stop).map (shard_path env kind)) 0
      (np_zeros [((pyRange start stop).map (shard_path env kind)).length *
        n_events_per_file, n_constituents, 4])
      (np_zeros [((pyRange start stop).map (shard_path env kind)).length *
        n_events_per_file])).2.2,
    rfl, ?_, provide_all_no_load env kind _ env.fs, ?_, hsh2, ?_, hsh4⟩
  · have halloc : Effect.allocZeros
        [((pyRange start stop).map (shard_path env kind)).length *
          n_events_per_file, n_constituents, 4]
        [((pyRange start stop).map (shard_path env kind)).length *
          n_events_per_file] "float32" =
        Effect.allocZeros
          [(stop - start).toNat * n_events_per_file, n_constituents, 4]
          [(stop - start).toNat * n_events_per_file] "float32" := by
      rw [hlen]
    dsimp only
    rw [halloc, List.append_assoc]
    rfl
  · rw [hsh1]
    unfold np_zeros
    rw [hlen]
  · rw [hsh3]
    unfold np_zeros
    rw [hlen]

/-- C6. For every call to `load_data` whose shard range (after the
negative-stop default) provisions successfully, the two result arrays are
allocated zero-filled — vectors of shape `(n_shards * 50000, 200, 4)` and
labels of shape `(n_shards * 50000,)`, both of dtype float32, where
`n_shards` is the number of provisioned shards — and this allocation
happens before any shard file is read: in the trace, the `allocZeros`
marker precedes every `npLoad`. -/
theorem spec_c6 {env : Env} {kind : String} {n : Nat} {start stop stopEff : Int}
    (hg : n_files_get kind = some n)
    (heff : stopEff = if stop < 0 then (n : Int) - 1 else stop)
    (h0 : 0 ≤ start) (h1 : start ≤ stopEff) (h2 : stopEff ≤ (n : Int))
    (hw : env.wget_error = none) :
    ∃ v l t1 t2,
      (load_data env kind start stop).result = .ok (v, l) ∧
      (load_data env kind start stop).trace =
        t1 ++ Effect.allocZeros
          [(stopEff - start).toNat * n_events_per_file, n_constituents, 4]
          [(stopEff - start).toNat * n_events_per_file] "float32" :: t2 ∧
      t1.filter Effect.isLoad = [] ∧
      v.shape = [(stopEff - start).toNat * n_events_per_file, n_constituents, 4] ∧
      v.dtype = "float32" ∧
      l.shape = [(stopEff - start).toNat * n_events_per_file] ∧
      l.dtype = "float32" := by
  unfold load_data
  by_cases hneg : stop < 0
  · have heq : stopEff = (n : Int) - 1 := by rw [heff, if_pos hneg]
    subst heq
    rw [if_pos hneg]
    simp only [hg]
    exact load_body_alloc hg h0 h1 h2 hw
  · have heq : stopEff = stop := by rw [heff, if_neg hneg]
    subst heq
    rw [if_neg hneg]
    exact load_body_alloc hg h0 h1 h2 hw

theorem spec_c6_witness :
    n_files_get "valid" = some 8 ∧
    ((7 : Int) = if (-1 : Int) < 0 then ((8 : Nat) : Int) - 1 else -1) ∧
    (0 : Int) ≤ 0 ∧ (0 : Int) ≤ 7 ∧ (7 : Int) ≤ ((8 : Nat) : Int) ∧
    env0.wget_error = none ∧
    (∃ v l t1 t2,
      (load_data env0 "valid" 0 (-1)).result = .ok (v, l) ∧
      (load_data env0 "valid" 0 (-1)).trace =
        t1 ++ Effect.allocZeros
          [((7 : Int) - 0).toNat * n_events_per_file, n_constituents, 4]
          [((7 : Int) - 0).toNat * n_events_per_file] "float32" :: t2 ∧
      t1.filter Effect.isLoad = [] ∧
      v.shape = [((7 : Int) - 0).toNat * n_events_per_file, n_constituents, 4] ∧
      v.dtype = "float32" ∧
      l.shape = [((7 : Int) - 0).toNat * n_events_per_file] ∧
      l.dtype = "float32") :=
  ⟨by decide, by decide, by decide, by decide, by decide, rfl,
    @spec_c6 env0 "valid" 8 0 (-1) 7 (by decide) (by decide) (by decide)
      (by decide) (by decide) rfl⟩

/-- C7. For every `load_data(kind, start, stop)` call over a valid
non-empty explicit range, the shards are provisioned and then read in
increasing index order (`start` through `stop - 1`; in the trace, every
provisioning effect precedes the allocation and the `npLoad` reads follow
it in index order), and the data of the `j`-th shard in that order (`j`
counted from 0) fills exactly the contiguous event slice
`[j*50000, (j+1)*50000)` of both output arrays. -/
theorem spec_c7 {env : Env} {kind : String} {n : Nat} {start stop : Int}
    (hg : n_files_get kind = some n) (h0 : 0 ≤ start) (h1 : start < stop)
    (h2 : stop ≤ (n : Int)) (hw : env.wget_error = none) :
    ∃ v l t1,
      (load_data env kind start stop).result = .ok (v, l) ∧
      (load_data env kind start stop).trace =
        t1 ++ Effect.allocZeros
          [(stop - start).toNat * n_events_per_file, n_constituents, 4]
          [(stop - start).toNat * n_events_per_file] "float32" ::
          (pyRange start stop).map
            (fun i => Effect.npLoad (shard_path env kind i)) ∧
      t1.filter Effect.isLoad = [] ∧
      ∀ j e, j < (stop - start).toNat → e < n_events_per_file →
        v.elem (j * n_events_per_file + e) =
          env.shard_vec (shard_path env kind (start + (j : Int))) e ∧
        l.elem (j * n_events_per_file + e) =
          env.shard_label (shard_path env kind (start + (j : Int))) e := by
  unfold load_data
  rw [if_neg (by omega)]
  have hvalid : ∀ i ∈ pyRange start stop,
      ∃ f, _check_dataset_file kind i = .ok f := by
    intro i hi
    obtain ⟨hla, hlb⟩ := pyRange_mem.mp hi
    exact ⟨_, check_ok_intro hg (by omega) (by omega)⟩
  have hpa := provide_all_ok hw (pyRange start stop) env.fs hvalid
  have hlen : ((pyRange start stop).map (shard_path env kind)).length =
      (stop - start).toNat := by
    rw [List.length_map, pyRange_length]
  rw [load_body_eq hpa]
  refine ⟨(fill_loop env ((pyRange start stop).map (shard_path env kind)) 0
      (np_zeros [((pyRange start stop).map (shard_path env kind)).length *
        n_events_per_file, n_constituents, 4])
      (np_zeros [((pyRange start stop).map (shard_path env kind)).length *
        n_events_per_file])).1,
    (fill_loop env ((pyRange start stop).map (shard_path env kind)) 0
      (np_zeros [((pyRange start stop).map (shard_path env kind)).length *
        n_events_per_file, n_constituents, 4])
      (np_zeros [((pyRange start stop).map (shard_path env kind)).length *
        n_events_per_file])).2.1,
    (provide_all env kind (pyRange start stop) env.fs).trace,
    rfl, ?_, provide_all_no_load env kind _ env.fs, ?_⟩
  · have halloc : Effect.allocZeros
        [((pyRange start stop).map (shard_path env kind)).length *
          n_events_per_file, n_constituents, 4]
        [((pyRange start stop).map (shard_path env kind)).length *
          n_events_per_file] "float32" =
        Effect.allocZeros
          [(stop - start).toNat * n_events_per_file, n_constituents, 4]
          [(stop - start).toNat * n_events_per_file] "float32" := by
      rw [hlen]
    dsimp only
    rw [halloc, fill_loop_trace, List.map_map, List.append_assoc]
    rfl
  · intro j e hj he
    have hk : j < ((pyRange start stop).map (shard_path env kind)).length := by
      rw [hlen]
      exact hj
    obtain ⟨hv, hl⟩ := fill_loop_at env
      ((pyRange start stop).map (shard_path env kind)) 0
      (np_zeros [((pyRange start stop).map (shard_path env kind)).length *
        n_events_per_file, n_constituents, 4])
      (np_zeros [((pyRange start stop).map (shard_path env kind)).length *
        n_events_per_file]) j hk e he
    rw [Nat.zero_add] at hv hl
    rw [pyRange_map_get] at hv hl
    exact ⟨hv, hl⟩

theorem spec_c7_witness :
    n_files_get "train" = some 20 ∧ (0 : Int) ≤ 0 ∧ (0 : Int) < 2 ∧
    (2 : Int) ≤ ((20 : Nat) : Int) ∧ env0.wget_error = none ∧
    (∃ v l t1,
      (load_data env0 "train" 0 2).result = .ok (v, l) ∧
      (load_data env0 "train" 0 2).trace =
        t1 ++ Effect.allocZeros
          [((2 : Int) - 0).toNat * n_events_per_file, n_constituents, 4]
          [((2 : Int) - 0).toNat * n_events_per_file] "float32" ::
          (pyRange 0 2).map
            (fun i => Effect.npLoad (shard_path env0 "train" i)) ∧
      t1.filter Effect.isLoad = [] ∧
      ∀ j e, j < ((2 : Int) - 0).toNat → e < n_events_per_file →
        v.elem (j * n_events_per_file + e) =
          env0.shard_vec (shard_path env0 "train" (0 + (j : Int))) e ∧
        l.elem (j * n_events_per_file + e) =
          env0.shard_label (shard_path env0 "train" (0 + (j : Int))) e) :=
  ⟨by decide, by decide, by decide, by decide, rfl,
    @spec_c7 env0 "train" 20 0 2 (by decide) (by decide) (by decide)
      (by decide) rfl⟩
end Helpers
